import Mathlib

/-!
# Verification of the pragma-cli specification against its code

A shallow embedding of the behaviours of the `pragma` command-line client:
the publish status-poll loop and tarball exclusion filter (from
`src/pragma_cli/commands/providers.py`), the confirmation gate of the
mutating provider commands (from `providers.py` and `store.py`), and the
rollback target selection, secret file-reference resolver, resource-id
parser, config-context deletion, credential store and auth-URL derivation
(modelled from the specification, since only their tests ship in the
source tree under scrutiny).
-/

namespace PragmaCli

/-! ## Publish status polling (`_poll_publish_status`, providers.py) -/

/-- `PUBLISH_POLL_INTERVAL` from providers.py (seconds; the float 2.0 is exact). -/
def PUBLISH_POLL_INTERVAL : Nat := 2

/-- `PUBLISH_POLL_TIMEOUT` from providers.py (seconds). -/
def PUBLISH_POLL_TIMEOUT : Nat := 600

/-- Outcome of the polling loop, with the number of status fetches performed. -/
inductive PollResult where
  | published (fetches : Nat)
  | buildFailed (fetches : Nat)
  | timedOut (fetches : Nat)
deriving DecidableEq, Repr

/-- The body of `_poll_publish_status`: iteration `n` fetches `status n`;
it breaks on a terminal status ("published" / "failed"), otherwise compares
the elapsed wall-clock time with `PUBLISH_POLL_TIMEOUT` and either raises a
timeout or sleeps `PUBLISH_POLL_INTERVAL` seconds and retries.  Each fetch
is instantaneous in the model, so at iteration `n` (zero-based) the elapsed
time is `PUBLISH_POLL_INTERVAL * n` seconds.  The fuel argument bounds the
recursion; the loop in the source is unbounded but always returns within
302 iterations because the timeout check fires at `n = 301`. -/
def pollFrom (status : Nat → String) (n : Nat) : Nat → Option PollResult
  | 0 => none
  | fuel + 1 =>
    let s := status n
    if s = "published" then some (.published (n + 1))
    else if s = "failed" then some (.buildFailed (n + 1))
    else if PUBLISH_POLL_TIMEOUT < PUBLISH_POLL_INTERVAL * n then some (.timedOut (n + 1))
    else pollFrom status (n + 1) fuel

/-- `_poll_publish_status` as a function of the sequence of statuses the
remote `get_publish_status` returns.  302 units of fuel always suffice. -/
def poll_publish_status (status : Nat → String) : Option PollResult :=
  pollFrom status 0 302

/-- The status sequence of the spec's first polling scenario:
`pending`, `pending`, then `published`. -/
def pendingTwiceThenPublished : Nat → String :=
  fun n => if n < 2 then "pending" else "published"

/-- A fetch function that never returns a terminal status. -/
def pendingForever : Nat → String := fun _ => "pending"

/-! ## Tarball creation (`create_tarball` and `TARBALL_EXCLUDES`, providers.py) -/

/-- `TARBALL_EXCLUDES` from providers.py. -/
def TARBALL_EXCLUDES : List String :=
  [".git", "__pycache__", ".venv", ".env", ".pytest_cache", ".mypy_cache",
   ".ruff_cache", "*.pyc", "*.pyo", "*.egg-info", "dist", "build", ".tox", ".nox"]

/-- Python's `str.startswith`, on the character lists of the strings:
`hasPrefixL pat s` holds when `pat` is an initial run of `s`. -/
def hasPrefixL : List Char → List Char → Bool
  | [], _ => true
  | _ :: _, [] => false
  | p :: ps, c :: cs => p == c && hasPrefixL ps cs

/-- Python's `str.endswith`, on the character lists of the strings. -/
def hasSuffixL (pat s : List Char) : Bool :=
  hasPrefixL pat.reverse s.reverse

/-- One path segment matches the exclusion set: it is equal to an entry, or an
entry starts with "*" and the segment ends with that entry's suffix
(`pattern.startswith("*") and part.endswith(pattern[1:])` in the source). -/
def excludedPart (part : String) : Bool :=
  TARBALL_EXCLUDES.contains part ||
    TARBALL_EXCLUDES.any fun pattern =>
      hasPrefixL ['*'] pattern.data && hasSuffixL (pattern.data.drop 1) part.data

/-- `exclude_filter` from `create_tarball`: a path (as its list of segments,
`Path(name).parts`) is dropped when any segment matches; returning `true`
models the Python filter returning `None`. -/
def exclude_filter (parts : List String) : Bool :=
  parts.any excludedPart

/-- `create_tarball`, restricted to the entry selection it performs: of the
candidate entries of the source directory (each a root-relative path given by
its segments), the archive keeps exactly those the filter does not drop. -/
def create_tarball (entries : List (List String)) : List (List String) :=
  entries.filter fun p => !exclude_filter p

/-- The directory of the spec's tarball scenario: `.git/`, `__pycache__/`,
`.venv/` and `main.py`. -/
def tarballScenarioEntries : List (List String) :=
  [[".git"], [".git", "config"], ["__pycache__"],
   ["__pycache__", "module.cpython-313.pyc"], [".venv"],
   [".venv", "pyvenv.cfg"], ["main.py"]]

/-! ## Confirmation gate of the mutating provider commands

`providers.py` `install` / `uninstall` / `upgrade` / `delete` and `store.py`
`install_provider` / `uninstall_provider` / `upgrade_provider` all guard the
remote call with the same block:

    if not yes:
        confirm = typer.confirm(...)
        if not confirm:
            console.print("[dim]Cancelled.[/dim]")
            raise typer.Exit(0)
-/

/-- The confirmation gate shared by the mutating provider commands:
`skipPrompt` is the `--yes` / `--force` flag, `answer` the user's reply to
`typer.confirm`.  `none` means the command proceeds to the remote call;
`some c` means it terminates right here with exit code `c`. -/
def confirm_gate (skipPrompt answer : Bool) : Option Nat :=
  if skipPrompt then none
  else if answer then none
  else some 0

/-! ## Rollback target selection (`providers rollback`)

The command itself is not part of the source tree under scrutiny; only its
tests are (tests/test_providers.py). -/

/-- Build status as reported in the provider build history. -/
inductive BuildStatus where
  | success
  | failed
  | pending
deriving DecidableEq, Repr

/-- One entry of the provider build history (version plus build status). -/
structure BuildInfo where
  version : String
  status : BuildStatus
deriving DecidableEq, Repr

/-- Whether a build succeeded. -/
def isSuccess : BuildStatus → Bool
  | .success => true
  | _ => false

/-- Modelled from the spec: `providers rollback` without an explicit version
"must select the second-most-recent build whose status is success among the
provider's build history ordered by recency, skipping failed builds".  The
history list is ordered newest first; the target is the second element of
its success-filtered sublist, if any. -/
def find_previous_success (builds : List BuildInfo) : Option String :=
  match builds.filter fun b => isSuccess b.status with
  | _ :: prev :: _ => some prev.version
  | _ => none

/-- Modelled from the spec: the `providers rollback` command.  `Except.ok v`
means the remote `rollback_provider` operation is invoked with target
version `v`; `Except.error msg` means the command fails with `msg` and the
remote rollback operation is never called ("if fewer than two successful
builds exist, fails with 'no previous successful build found' and never
calls the remote rollback operation"). -/
def rollback_command (builds : List BuildInfo) (version : Option String) :
    Except String String :=
  match version with
  | some v => .ok v
  | none =>
    match find_previous_success builds with
    | some v => .ok v
    | none => .error "No previous successful build found"

/-! ## Resource identifier parsing (`parse_resource_id`, pragma_cli/helpers.py)

The helper module is absent from the source tree; only its tests are
(tests/test_helpers.py). -/

/-- Split a character list at its first '/': the characters before it and
the characters after it (Python's `s.split("/", 1)`); `none` when there is
no '/'. -/
def splitFirstSlash : List Char → Option (List Char × List Char)
  | [] => none
  | c :: cs =>
    if c = '/' then some ([], cs)
    else (splitFirstSlash cs).map fun pr => (c :: pr.1, pr.2)

/-- Modelled from the spec: `parse_resource_id` (pragma_cli/helpers.py,
absent from the source tree): a resource identifier is "a string split on
`/`; the first segment is provider, remainder (after first slash) is
resource".  `none` models the `ValueError` ("Invalid resource ID format")
raised when the identifier has no '/'. -/
def parse_resource_id (s : String) : Option (String × String) :=
  (splitFirstSlash s.data).map fun pr => (String.mk pr.1, String.mk pr.2)

/-! ## Context auth-URL derivation (`ContextConfig.get_auth_url`, pragma_cli/config.py)

The config module is absent from the source tree; only its tests are
(tests/test_config.py). -/

/-- Python's `in` on strings: `hasSubstrL pat s` holds when `pat` occurs
contiguously inside `s`. -/
def hasSubstrL (pat : List Char) : List Char → Bool
  | [] => pat.isEmpty
  | c :: cs => hasPrefixL pat (c :: cs) || hasSubstrL pat cs

/-- `hasSubstrL` lifted to strings: `hasSubstr s pat` is Python's `pat in s`. -/
def hasSubstr (s pat : String) : Bool :=
  hasSubstrL pat.data s.data

/-- Python's `str.replace(pat, repl, 1)`: replace the first occurrence of
`pat` (assumed non-empty), if any. -/
def replaceFirstL (pat repl : List Char) : List Char → List Char
  | [] => []
  | c :: cs =>
    if hasPrefixL pat (c :: cs) then repl ++ (c :: cs).drop pat.length
    else c :: replaceFirstL pat repl cs

/-- A named API context: base API URL plus optional explicit auth URL. -/
structure ContextConfig where
  api_url : String
  auth_url : Option String := none
deriving Repr, DecidableEq

/-- Modelled from the spec: `ContextConfig.get_auth_url` (pragma_cli/config.py,
absent from the source tree): an explicitly set `auth_url` is returned
unmodified; otherwise, "auth_url, if absent, is derived from api_url
(replace a leading `api.` host label with `app.`, or default
`localhost:8000`→`localhost:3000`)", where per the tests any api_url
containing "localhost" or "127.0.0.1" (including the host `api.localhost`)
takes the localhost default in preference to the `api.`→`app.` rewrite. -/
def get_auth_url (ctx : ContextConfig) : String :=
  match ctx.auth_url with
  | some u => u
  | none =>
    if hasSubstr ctx.api_url "localhost" || hasSubstr ctx.api_url "127.0.0.1" then
      "http://localhost:3000"
    else
      String.mk (replaceFirstL "api.".data "app.".data ctx.api_url.data)

/-! ## Context deletion (`config delete-context`, pragma_cli/config.py commands)

The config command module is absent from the source tree; only its tests
are (tests/test_config.py). -/

/-- The CLI config document: the current context name and the context map
(as an association list, preserving file order). -/
structure PragmaConfig where
  current_context : String
  contexts : List (String × ContextConfig)
deriving Repr, DecidableEq

/-- Modelled from the spec: the `config delete-context` command: "deleting
the currently-selected context must be rejected (fails with 'cannot delete
current context') — deletion is only permitted for non-current contexts";
an unknown name fails with "not found".  The result pairs the persisted
config (unchanged on failure) with the error message, if any (the command
exits with code 1 exactly when a message is present). -/
def delete_context (cfg : PragmaConfig) (name : String) : PragmaConfig × Option String :=
  if (cfg.contexts.lookup name).isNone then
    (cfg, some ("Context '" ++ name ++ "' not found"))
  else if name = cfg.current_context then
    (cfg, some "Cannot delete current context")
  else
    ({ cfg with contexts := cfg.contexts.filter fun kv => kv.1 != name }, none)

/-! ## Credential store (`save_credentials` / `clear_credentials`, pragma_cli/commands/auth.py)

The auth module is absent from the source tree; only its tests are
(tests/test_auth.py). -/

/-- The credentials file: `none` when the file is absent, otherwise the
`context=token` lines in file order. -/
abbrev CredState := Option (List (String × String))

/-- Replace the token on an existing `context=token` line, or append a new
line when the context has none yet. -/
def setEntry : List (String × String) → String → String → List (String × String)
  | [], ctx, token => [(ctx, token)]
  | (k, v) :: rest, ctx, token =>
    if k = ctx then (ctx, token) :: rest else (k, v) :: setEntry rest ctx token

/-- Modelled from the spec: `save_credentials(token, context_name)` "appends
or replaces the `context_name=token` line, writing the whole file" (creating
it when absent). -/
def save_credentials (st : CredState) (token ctx : String) : CredState :=
  some (setEntry (st.getD []) ctx token)

/-- Modelled from the spec: `clear_credentials(context_name?)`: "if a
specific context is named, remove only its line (rewrite file, or delete
the file entirely if no lines remain); if no context is given, delete the
file outright regardless of contents". -/
def clear_credentials (st : CredState) (ctx : Option String) : CredState :=
  match ctx with
  | none => none
  | some c =>
    match st with
    | none => none
    | some entries =>
      let remaining := entries.filter fun kv => kv.1 != c
      if remaining.isEmpty then none else some remaining

/-- Run `save_credentials` for each `(context, token)` pair in turn,
starting from an absent credentials file. -/
def saveAll (pairs : List (String × String)) : CredState :=
  pairs.foldl (fun st kv => save_credentials st kv.2 kv.1) none

/-! ## Secret file-reference resolution (`resources apply`, pragma_cli/commands/resources.py)

The resources command module is absent from the source tree; only its tests
are (tests/test_resources.py). -/

/-- The local filesystem visible to the resolver: path to file contents. -/
abbrev FileSys := List (String × String)

/-- A parsed resource manifest; `data` is the flat `config.data` mapping of
key to string value (the part the secret resolver scans). -/
structure Manifest where
  provider : String
  resource : String
  name : String
  data : List (String × String)
deriving Repr, DecidableEq

/-- Modelled from the spec: resolution of a `@` file-reference path,
"resolved relative to the manifest file's directory if relative, else used
as-is if absolute"; joining strips a leading `./` as Python's
`Path.__truediv__` does. -/
def resolve_path (baseDir path : String) : String :=
  if hasPrefixL ['/'] path.data then path
  else
    baseDir ++ "/" ++
      (if hasPrefixL ['.', '/'] path.data then String.mk (path.data.drop 2) else path)

/-- The path referenced by a `@`-prefixed value: everything after the `@`,
resolved against the manifest directory. -/
def refPath (baseDir v : String) : String :=
  resolve_path baseDir (String.mk (v.data.drop 1))

/-- Modelled from the spec: resolution of one `config.data` value: "any
value beginning with the sentinel character `@` is treated as a file
reference ... the value is replaced in place by the ... contents of that
file"; a missing file is the `FileNotFound` condition identifying the
missing path; a value not beginning with `@` passes through unchanged. -/
def resolve_value (fs : FileSys) (baseDir v : String) : Except String String :=
  if hasPrefixL ['@'] v.data then
    match fs.lookup (refPath baseDir v) with
    | some content => .ok content
    | none => .error ("File not found: " ++ refPath baseDir v)
  else .ok v

/-- Resolve every value of a `config.data` mapping, left to right, failing
on the first missing file reference. -/
def resolve_data (fs : FileSys) (baseDir : String) :
    List (String × String) → Except String (List (String × String))
  | [] => .ok []
  | (k, v) :: rest => do
    let v2 ← resolve_value fs baseDir v
    let rest2 ← resolve_data fs baseDir rest
    pure ((k, v2) :: rest2)

/-- Modelled from the spec: the secret file-reference resolver runs "only
when `provider == "pragma"` and `resource == "secret"`"; manifests of any
other provider/resource type are never scanned and pass through whole. -/
def resolve_file_references (fs : FileSys) (baseDir : String) (m : Manifest) :
    Except String Manifest :=
  if m.provider = "pragma" ∧ m.resource = "secret" then
    (resolve_data fs baseDir m.data).map fun d => { m with data := d }
  else .ok m

/-- The resolved form of one value when every referenced file exists,
stated as the spec words it: a `@`-value becomes the referenced file's
contents, any other value is unchanged. -/
def resolved_value (fs : FileSys) (baseDir v : String) : String :=
  if hasPrefixL ['@'] v.data then (fs.lookup (refPath baseDir v)).getD v
  else v

/-- The `resources apply` submission loop over the parsed manifests of one
file: each document is resolved and then submitted by the remote
`apply_resource` call; a resolution failure stops the command before any
further submission.  Returns the submitted manifests and the error, if
any. -/
def apply_manifests (fs : FileSys) (baseDir : String) :
    List Manifest → List Manifest × Option String
  | [] => ([], none)
  | m :: ms =>
    match resolve_file_references fs baseDir m with
    | .error e => ([], some e)
    | .ok m2 =>
      let rest := apply_manifests fs baseDir ms
      (m2 :: rest.1, rest.2)

end PragmaCli

namespace PragmaCli

/-! ## Theorems -/

/-- C4: in the publish status-poll loop, a status-fetch function returning
"pending" twice then "published" terminates the loop with success after
exactly 3 fetch invocations (at the fixed 2-second interval encoded in the
elapsed-time model); and any fetch function that never returns a terminal
status ("published" or "failed") makes the loop fail with a timeout once the
elapsed time exceeds the 600-second ceiling (which happens at fetch 302). -/
theorem poll_publish_status_spec :
    poll_publish_status pendingTwiceThenPublished = some (.published 3) ∧
    ∀ status : Nat → String,
      (∀ n, status n ≠ "published" ∧ status n ≠ "failed") →
      poll_publish_status status = some (.timedOut 302) := by
  constructor
  · decide
  · intro status h
    have key : ∀ fuel n, n + fuel = 302 → n ≤ 301 →
        pollFrom status n fuel = some (.timedOut 302) := by
      intro fuel
      induction fuel with
      | zero => intro n hn hle; omega
      | succ k ih =>
        intro n hn hle
        rw [pollFrom]
        simp only [(h n).1, (h n).2, if_false]
        by_cases hlt : PUBLISH_POLL_TIMEOUT < PUBLISH_POLL_INTERVAL * n
        · have : n = 301 := by
            simp only [PUBLISH_POLL_TIMEOUT, PUBLISH_POLL_INTERVAL] at hlt
            omega
          subst this
          simp [hlt]
        · have hbound : n ≤ 300 := by
            simp only [PUBLISH_POLL_TIMEOUT, PUBLISH_POLL_INTERVAL] at hlt
            omega
          simp [hlt, ih (n + 1) (by omega) (by omega)]
    exact key 302 0 rfl (by omega)

/-- Closed witness for the timeout half of the polling theorem, at the fetch
function that always answers "pending". -/
theorem poll_publish_status_spec_witness :
    poll_publish_status pendingForever = some (.timedOut 302) := by
  refine poll_publish_status_spec.2 pendingForever fun n => ⟨?_, ?_⟩ <;>
    simp [pendingForever]

/-- C6: `create_tarball` keeps exactly the entries none of whose path
segments matches the exclusion set (equal to an excluded name, or ending
with the suffix of a "*"-prefixed pattern); in particular the directory
containing `.git/`, `__pycache__/`, `.venv/` and `main.py` yields an archive
containing only `main.py`. -/
theorem create_tarball_excludes :
    (∀ (entries : List (List String)) (p : List String),
      p ∈ create_tarball entries ↔ p ∈ entries ∧ ¬ p.any excludedPart) ∧
    create_tarball tarballScenarioEntries = [["main.py"]] := by
  constructor
  · intro entries p
    simp [create_tarball, exclude_filter, List.mem_filter]
  · decide

/-- Closed witness for the membership characterization of
`create_tarball_excludes`, at the spec's scenario directory. -/
theorem create_tarball_excludes_witness :
    ["main.py"] ∈ create_tarball tarballScenarioEntries ↔
      ["main.py"] ∈ tarballScenarioEntries ∧ ¬ ["main.py"].any excludedPart :=
  create_tarball_excludes.1 tarballScenarioEntries ["main.py"]

/-- C7 counterexample: the claim says a declined confirmation terminates the
command with exit code 1, but the confirmation gate shared by `install`,
`uninstall`, `upgrade` and `delete` raises `typer.Exit(0)`: with the prompt
active and the user declining, the command exits with code 0, not 1. -/
theorem confirm_gate_declined_exits_zero :
    confirm_gate false false = some 0 ∧ (0 : Nat) ≠ 1 := by
  decide

/-- C7 amended: for every mutating provider command guarded by the shared
confirmation gate, when the prompt is active (no `--yes`/`--force`) and the
user declines, the command terminates with exit code 0 (cancellation exits
as success); it proceeds to the remote call iff the prompt is skipped or the
user accepts. -/
theorem confirm_gate_spec :
    (∀ skipPrompt answer : Bool,
      skipPrompt = false → answer = false → confirm_gate skipPrompt answer = some 0) ∧
    ∀ skipPrompt answer : Bool,
      confirm_gate skipPrompt answer = none ↔ (skipPrompt = true ∨ answer = true) := by
  constructor
  · intro skipPrompt answer hs ha
    subst hs; subst ha; rfl
  · decide

/-- Closed witness for `confirm_gate_spec`: declining the active prompt
exits with code 0. -/
theorem confirm_gate_spec_witness : confirm_gate false false = some 0 :=
  confirm_gate_spec.1 false false rfl rfl

/-- C1: rollback without an explicit target selects the second entry of the
success-filtered build history (the second-most-recent successful build,
skipping failed builds) and invokes the remote rollback with it; when the
history holds fewer than two successful builds it fails with "no previous
successful build found" and the remote rollback operation is never called.
In particular, histories `[v3 ok, v2 failed, v1 ok]` and `[v3 ok]` give
target `v1` and the failure respectively. -/
theorem rollback_target_selection :
    (∀ (builds : List BuildInfo) (newest prev : BuildInfo) (rest : List BuildInfo),
      (builds.filter fun b => isSuccess b.status) = newest :: prev :: rest →
      rollback_command builds none = .ok prev.version) ∧
    (∀ builds : List BuildInfo,
      (builds.filter fun b => isSuccess b.status).length < 2 →
      rollback_command builds none = .error "No previous successful build found") ∧
    rollback_command
      [⟨"v3", .success⟩, ⟨"v2", .failed⟩, ⟨"v1", .success⟩] none = .ok "v1" ∧
    rollback_command [⟨"v3", .success⟩] none =
      .error "No previous successful build found" := by
  refine ⟨?_, ?_, rfl, rfl⟩
  · intro builds newest prev rest hfilter
    simp [rollback_command, find_previous_success, hfilter]
  · intro builds hlen
    simp only [rollback_command, find_previous_success]
    generalize hfl : (builds.filter fun b => isSuccess b.status) = l at hlen ⊢
    rcases l with _ | ⟨a, _ | ⟨b, t⟩⟩
    · rfl
    · rfl
    · rw [List.length_cons, List.length_cons] at hlen
      omega

/-- Closed witness for `rollback_target_selection`, at the spec's
three-build history: the success filter yields `[v3, v1]` and rollback
targets `v1`. -/
theorem rollback_target_selection_witness :
    rollback_command
      [⟨"v3", .success⟩, ⟨"v2", .failed⟩, ⟨"v1", .success⟩] none = .ok "v1" :=
  rollback_target_selection.1
    [⟨"v3", .success⟩, ⟨"v2", .failed⟩, ⟨"v1", .success⟩]
    ⟨"v3", .success⟩ ⟨"v1", .success⟩ [] rfl

theorem splitFirstSlash_append (p r : List Char) (hp : '/' ∉ p) :
    splitFirstSlash (p ++ '/' :: r) = some (p, r) := by
  induction p with
  | nil => simp [splitFirstSlash]
  | cons c cs ih =>
    rw [List.mem_cons, not_or] at hp
    have hc : ¬ c = '/' := fun h => hp.1 h.symm
    simp [splitFirstSlash, hc, ih hp.2]

theorem splitFirstSlash_eq_none (l : List Char) (hl : '/' ∉ l) :
    splitFirstSlash l = none := by
  induction l with
  | nil => rfl
  | cons c cs ih =>
    rw [List.mem_cons, not_or] at hl
    have hc : ¬ c = '/' := fun h => hl.1 h.symm
    simp [splitFirstSlash, hc, ih hl.2]

/-- C5: `parse_resource_id` splits at the first "/": for every identifier
whose text before the first slash is `p` (so `p` holds no '/') and whose
remainder is `r`, the provider is `p` and the resource is all of `r`,
further slashes included; `parse("a/b/c") = ("a", "b/c")`; and every
identifier without a '/' fails with the invalid-format error. -/
theorem parse_resource_id_spec :
    (∀ p r : List Char, '/' ∉ p →
      parse_resource_id (String.mk (p ++ '/' :: r)) = some (String.mk p, String.mk r)) ∧
    parse_resource_id "a/b/c" = some ("a", "b/c") ∧
    ∀ s : String, '/' ∉ s.data → parse_resource_id s = none := by
  refine ⟨?_, by decide, ?_⟩
  · intro p r hp
    simp [parse_resource_id, splitFirstSlash_append p r hp]
  · intro s hs
    simp [parse_resource_id, splitFirstSlash_eq_none s.data hs]

/-- Closed witness for `parse_resource_id_spec`: the identifier "a/b/c"
splits into provider "a" and resource "b/c". -/
theorem parse_resource_id_spec_witness :
    parse_resource_id (String.mk (['a'] ++ '/' :: ['b', '/', 'c'])) =
      some (String.mk ['a'], String.mk ['b', '/', 'c']) :=
  parse_resource_id_spec.1 ['a'] ['b', '/', 'c'] (by decide)

/-- C10: an explicitly set `auth_url` is always returned unmodified; for a
context without one whose `api_url` contains "localhost" (which covers a
host like `api.localhost`) or "127.0.0.1", `get_auth_url` returns
`http://localhost:3000` — taking precedence over the `api.`→`app.` rewrite,
which applies otherwise (as on `https://api.pragmatiks.io`). -/
theorem get_auth_url_localhost_precedence :
    (∀ (ctx : ContextConfig) (u : String),
      ctx.auth_url = some u → get_auth_url ctx = u) ∧
    (∀ ctx : ContextConfig, ctx.auth_url = none →
      (hasSubstr ctx.api_url "localhost" || hasSubstr ctx.api_url "127.0.0.1") = true →
      get_auth_url ctx = "http://localhost:3000") ∧
    get_auth_url ⟨"http://api.localhost:8000", none⟩ = "http://localhost:3000" ∧
    get_auth_url ⟨"http://127.0.0.1:8000", none⟩ = "http://localhost:3000" ∧
    get_auth_url ⟨"https://api.pragmatiks.io", none⟩ = "https://app.pragmatiks.io" := by
  refine ⟨?_, ?_, by decide, by decide, by decide⟩
  · intro ctx u hu
    simp [get_auth_url, hu]
  · intro ctx hnone hloc
    simp [get_auth_url, hnone, hloc]

/-- Closed witness for `get_auth_url_localhost_precedence`: the local dev
host `api.localhost` resolves to the localhost auth URL. -/
theorem get_auth_url_localhost_precedence_witness :
    get_auth_url ⟨"http://api.localhost:8000", none⟩ = "http://localhost:3000" :=
  get_auth_url_localhost_precedence.2.1 ⟨"http://api.localhost:8000", none⟩ rfl (by decide)

/-- C8: `config delete-context` on the currently-selected context fails with
"Cannot delete current context" leaving the config (hence the context map)
unchanged; a run that succeeds (no error) is possible only for a non-current
context, in which case exactly the named entry is removed. -/
theorem delete_context_rejects_current :
    (∀ (cfg : PragmaConfig) (name : String),
      (cfg.contexts.lookup name).isSome → name = cfg.current_context →
      delete_context cfg name = (cfg, some "Cannot delete current context")) ∧
    (∀ (cfg : PragmaConfig) (name : String),
      (delete_context cfg name).2 = none → name ≠ cfg.current_context) ∧
    (∀ (cfg : PragmaConfig) (name : String),
      (cfg.contexts.lookup name).isSome → name ≠ cfg.current_context →
      delete_context cfg name =
        ({ cfg with contexts := cfg.contexts.filter fun kv => kv.1 != name }, none)) := by
  have notNone : ∀ (cfg : PragmaConfig) (name : String),
      (cfg.contexts.lookup name).isSome → ¬ (cfg.contexts.lookup name).isNone = true := by
    intro cfg name hmem
    cases h : cfg.contexts.lookup name with
    | none => rw [h] at hmem; simp at hmem
    | some a => simp
  refine ⟨?_, ?_, ?_⟩
  · intro cfg name hmem hcur
    unfold delete_context
    rw [if_neg (notNone cfg name hmem), if_pos hcur]
  · intro cfg name h
    unfold delete_context at h
    by_cases h1 : (cfg.contexts.lookup name).isNone
    · rw [if_pos h1] at h
      simp at h
    · by_cases h2 : name = cfg.current_context
      · rw [if_neg h1, if_pos h2] at h
        simp at h
      · exact h2
  · intro cfg name hmem hne
    unfold delete_context
    rw [if_neg (notNone cfg name hmem), if_neg hne]

/-- Closed witness for `delete_context_rejects_current`: a config whose only
context "production" is current rejects its deletion and is unchanged. -/
theorem delete_context_rejects_current_witness :
    delete_context ⟨"production", [("production", ⟨"https://api.prod.com", none⟩)]⟩
        "production" =
      (⟨"production", [("production", ⟨"https://api.prod.com", none⟩)]⟩,
        some "Cannot delete current context") :=
  delete_context_rejects_current.1
    ⟨"production", [("production", ⟨"https://api.prod.com", none⟩)]⟩ "production"
    (by decide) rfl

theorem setEntry_not_mem (l : List (String × String)) (ctx token : String)
    (h : ∀ kv ∈ l, kv.1 ≠ ctx) : setEntry l ctx token = l ++ [(ctx, token)] := by
  induction l with
  | nil => rfl
  | cons kv rest ih =>
    obtain ⟨k, v⟩ := kv
    have hk : ¬ k = ctx := h (k, v) (List.mem_cons_self _ _)
    simp only [setEntry, if_neg hk, List.cons_append]
    rw [ih fun kv2 h2 => h kv2 (List.mem_cons_of_mem _ h2)]

theorem saveAll_go (pairs : List (String × String)) :
    ∀ acc : List (String × String), ((acc ++ pairs).map Prod.fst).Nodup →
    pairs.foldl (fun st kv => save_credentials st kv.2 kv.1) (some acc) =
      some (acc ++ pairs) := by
  induction pairs with
  | nil => intro acc h; simp
  | cons p ps ih =>
    intro acc h
    rw [List.foldl_cons]
    have hacc : ∀ kv ∈ acc, kv.1 ≠ p.1 := by
      intro kv hkv heq
      have hmap : (acc.map Prod.fst ++ (p.1 :: ps.map Prod.fst)).Nodup := by
        simpa using h
      have hdisj := List.disjoint_of_nodup_append hmap
      exact hdisj (List.mem_map_of_mem Prod.fst hkv)
        (by rw [heq]; exact List.mem_cons_self _ _)
    have hstep : save_credentials (some acc) p.2 p.1 = some (acc ++ [p]) := by
      simp [save_credentials, setEntry_not_mem acc p.1 p.2 hacc]
    rw [hstep, ih (acc ++ [p]) (by simpa using h)]
    simp

/-- C9: saving tokens for pairwise-distinct contexts puts exactly those
lines in the credentials file; clearing one named context then removes
exactly its line, leaving every other context's token unchanged — deleting
the file entirely when no lines remain (in particular when the cleared
context was the last one) — and clearing without a context deletes the file
regardless of contents. -/
theorem credentials_save_clear_round_trip :
    ∀ pairs : List (String × String), (pairs.map Prod.fst).Nodup → pairs ≠ [] →
      saveAll pairs = some pairs ∧
      (∀ c : String, clear_credentials (saveAll pairs) (some c) =
        (if (pairs.filter fun kv => kv.1 != c).isEmpty then none
         else some (pairs.filter fun kv => kv.1 != c))) ∧
      clear_credentials (saveAll pairs) none = none := by
  intro pairs hnd hne
  have hsave : saveAll pairs = some pairs := by
    cases pairs with
    | nil => exact absurd rfl hne
    | cons q qs =>
      unfold saveAll
      rw [List.foldl_cons]
      have h1 : save_credentials none q.2 q.1 = some [q] := by
        simp [save_credentials, setEntry]
      rw [h1]
      have h2 := saveAll_go qs [q] (by simpa using hnd)
      simpa using h2
  refine ⟨hsave, ?_, rfl⟩
  intro c
  rw [hsave]
  rfl

/-- Closed witness for `credentials_save_clear_round_trip`: with tokens
saved for default, production and staging, clearing production leaves
exactly the default and staging lines. -/
theorem credentials_save_clear_round_trip_witness :
    clear_credentials
        (saveAll [("default", "t1"), ("production", "t2"), ("staging", "t3")])
        (some "production") =
      some [("default", "t1"), ("staging", "t3")] :=
  ((credentials_save_clear_round_trip
      [("default", "t1"), ("production", "t2"), ("staging", "t3")]
      (by decide) (by decide)).2.1 "production").trans (by decide)

theorem resolve_data_ok (fs : FileSys) (baseDir : String)
    (l : List (String × String))
    (h : ∀ kv ∈ l, hasPrefixL ['@'] kv.2.data = true →
      (fs.lookup (refPath baseDir kv.2)).isSome) :
    resolve_data fs baseDir l =
      .ok (l.map fun kv => (kv.1, resolved_value fs baseDir kv.2)) := by
  induction l with
  | nil => rfl
  | cons kv0 rest ih =>
    obtain ⟨k, v⟩ := kv0
    have hv : resolve_value fs baseDir v = .ok (resolved_value fs baseDir v) := by
      unfold resolve_value resolved_value
      by_cases hat : hasPrefixL ['@'] v.data = true
      · rw [if_pos hat, if_pos hat]
        have hsome : (fs.lookup (refPath baseDir v)).isSome = true :=
          h (k, v) (List.mem_cons_self _ _) hat
        cases hlook : fs.lookup (refPath baseDir v) with
        | none =>
          rw [hlook] at hsome
          simp at hsome
        | some content => rfl
      · rw [if_neg hat, if_neg hat]
    simp only [resolve_data]
    rw [hv, ih fun kv2 h2 hat2 => h kv2 (List.mem_cons_of_mem _ h2) hat2]
    rfl

theorem resolve_data_error (fs : FileSys) (baseDir : String)
    (l : List (String × String))
    (h : ∃ kv ∈ l, hasPrefixL ['@'] kv.2.data = true ∧
      fs.lookup (refPath baseDir kv.2) = none) :
    ∃ p, resolve_data fs baseDir l = .error ("File not found: " ++ p) ∧
      fs.lookup p = none := by
  induction l with
  | nil =>
    obtain ⟨kv, hkv, -⟩ := h
    simp at hkv
  | cons kv0 rest ih =>
    obtain ⟨k, v⟩ := kv0
    by_cases hat : hasPrefixL ['@'] v.data = true
    · cases hlook : fs.lookup (refPath baseDir v) with
      | none =>
        have hv : resolve_value fs baseDir v =
            .error ("File not found: " ++ refPath baseDir v) := by
          unfold resolve_value
          rw [if_pos hat, hlook]
        refine ⟨refPath baseDir v, ?_, hlook⟩
        simp only [resolve_data]
        rw [hv]
        rfl
      | some content =>
        have hv : resolve_value fs baseDir v = .ok content := by
          unfold resolve_value
          rw [if_pos hat, hlook]
        obtain ⟨kv, hkv, hat2, hnone⟩ := h
        rcases List.mem_cons.mp hkv with heq | hmem
        · cases heq
          have hnone2 : fs.lookup (refPath baseDir v) = none := hnone
          rw [hlook] at hnone2
          cases hnone2
        · obtain ⟨p, hp, hlp⟩ := ih ⟨kv, hmem, hat2, hnone⟩
          refine ⟨p, ?_, hlp⟩
          simp only [resolve_data]
          rw [hv, hp]
          rfl
    · have hv : resolve_value fs baseDir v = .ok v := by
        unfold resolve_value
        rw [if_neg hat]
      obtain ⟨kv, hkv, hat2, hnone⟩ := h
      rcases List.mem_cons.mp hkv with heq | hmem
      · cases heq
        have hat3 : hasPrefixL ['@'] v.data = true := hat2
        exact absurd hat3 hat
      · obtain ⟨p, hp, hlp⟩ := ih ⟨kv, hmem, hat2, hnone⟩
        refine ⟨p, ?_, hlp⟩
        simp only [resolve_data]
        rw [hv, hp]
        rfl

/-- C3: the secret file-reference resolver leaves every manifest whose
provider/resource type is not `pragma`/`secret` entirely unscanned and
unmodified, `@`-prefixed values included; and on a `pragma`/`secret`
manifest all of whose file references exist, it succeeds with the same
manifest except that each `config.data` value beginning with `@` is
replaced in place by the referenced file's contents (path resolved against
the manifest directory when relative, used as-is when absolute), all keys,
non-`@` values and remaining fields passing through unchanged. -/
theorem secret_resolver_spec :
    (∀ (fs : FileSys) (baseDir : String) (m : Manifest),
      ¬ (m.provider = "pragma" ∧ m.resource = "secret") →
      resolve_file_references fs baseDir m = .ok m) ∧
    ∀ (fs : FileSys) (baseDir : String) (m : Manifest),
      m.provider = "pragma" → m.resource = "secret" →
      (∀ kv ∈ m.data, hasPrefixL ['@'] kv.2.data = true →
        (fs.lookup (refPath baseDir kv.2)).isSome) →
      resolve_file_references fs baseDir m =
        .ok { m with data := m.data.map fun kv => (kv.1, resolved_value fs baseDir kv.2) } := by
  constructor
  · intro fs baseDir m hns
    unfold resolve_file_references
    rw [if_neg hns]
  · intro fs baseDir m hp hr hall
    unfold resolve_file_references
    rw [if_pos ⟨hp, hr⟩, resolve_data_ok fs baseDir m.data hall]
    rfl

/-- Closed witness for `secret_resolver_spec`: a secret manifest with two
file references and one plain value resolves the references to the files'
contents and keeps the plain value. -/
theorem secret_resolver_spec_witness :
    resolve_file_references
        [("/w/file1.txt", "content1"), ("/w/file2.txt", "content2")] "/w"
        ⟨"pragma", "secret", "multi-secret",
          [("key1.txt", "@./file1.txt"), ("key2.txt", "@./file2.txt"),
            ("plain_value", "not a file ref")]⟩ =
      .ok ⟨"pragma", "secret", "multi-secret",
        [("key1.txt", "content1"), ("key2.txt", "content2"),
          ("plain_value", "not a file ref")]⟩ :=
  (secret_resolver_spec.2
      [("/w/file1.txt", "content1"), ("/w/file2.txt", "content2")] "/w"
      ⟨"pragma", "secret", "multi-secret",
        [("key1.txt", "@./file1.txt"), ("key2.txt", "@./file2.txt"),
          ("plain_value", "not a file ref")]⟩
      rfl rfl (by decide)).trans (congrArg Except.ok (by decide))

/-- C2: applying a `pragma`/`secret` manifest one of whose `config.data`
values references a file missing from the filesystem fails with a
file-not-found error naming a missing path, and no resource is submitted
(the remote `apply_resource` call is never invoked). -/
theorem secret_missing_file_aborts :
    ∀ (fs : FileSys) (baseDir : String) (m : Manifest),
      m.provider = "pragma" → m.resource = "secret" →
      (∃ kv ∈ m.data, hasPrefixL ['@'] kv.2.data = true ∧
        fs.lookup (refPath baseDir kv.2) = none) →
      ∃ p, apply_manifests fs baseDir [m] = ([], some ("File not found: " ++ p)) ∧
        fs.lookup p = none := by
  intro fs baseDir m hp hr hex
  obtain ⟨p, hdata, hlp⟩ := resolve_data_error fs baseDir m.data hex
  refine ⟨p, ?_, hlp⟩
  simp only [apply_manifests]
  unfold resolve_file_references
  rw [if_pos ⟨hp, hr⟩, hdata]
  rfl

/-- Closed witness for `secret_missing_file_aborts`: a secret manifest
referencing `./nonexistent.txt` on an empty filesystem is rejected with the
file-not-found error and nothing is submitted. -/
theorem secret_missing_file_aborts_witness :
    ∃ p, apply_manifests ([] : FileSys) "/w"
        [⟨"pragma", "secret", "test-secret", [("missing.txt", "@./nonexistent.txt")]⟩] =
        ([], some ("File not found: " ++ p)) ∧
      ([] : FileSys).lookup p = none :=
  secret_missing_file_aborts [] "/w"
    ⟨"pragma", "secret", "test-secret", [("missing.txt", "@./nonexistent.txt")]⟩
    rfl rfl
    ⟨("missing.txt", "@./nonexistent.txt"), by decide, by decide, by decide⟩

end PragmaCli
